import Mathlib

/-!
Verification of the zorbitnews server core (`api/index.js`): the distributed
lock manager (`LockManager.acquire` / `LockManager.release` over the `Lock`
Mongoose collection), the scheduled update job (`NewsUpdater.updateDatabase`),
the single-attempt search fetch (`NewsUpdater.fetchFromSerpAPI`), and the
retrying HTTP client (`fetchWithRetry`).

Modelling conventions:
- Timestamps are natural numbers (milliseconds since epoch), as produced by
  `Date.getTime()`; `ttlMinutes * 60000` mirrors the source exactly.
- The MongoDB `locks` collection has a unique index on `jobName`, so it is
  modelled as a function from job names to at most one record.
- `findOneAndUpdate` with filter
  `{jobName, $or: [{expiresAt: {$lt: now}}, {expiresAt: {$exists: false}}]}`,
  a `$set` payload and `upsert: true` is one atomic step: if a record for
  `jobName` exists and is expired (`expiresAt < now`, strict, as `$lt`), it is
  overwritten in place; if no record exists, the upsert inserts one; if a
  non-expired record exists, the filter matches nothing and the attempted
  insert violates the unique `jobName` index, which the source catches and
  turns into `return false` with the store unchanged.  `expiresAt` is a
  required schema field, so the `$exists: false` arm never matches.
- Each lock-store operation in the source is a single database command, so in
  the interleaving model of concurrent instances each `acquire`/`release` is
  one atomic step; racing calls are the two possible serialisations.
- The `news` collection has a unique index on `link`
  (`newsSchema.index({link: 1}, {unique: true})`), and every write to it goes
  through `updateOne` with filter `{link}` and `upsert: true`; the collection
  is modelled as a list of documents and that operation as update-first-match
  or append.
- The HTTP transport is modelled as a function from the attempt index to the
  outcome of that attempt, so that the number of requests a fetch issues is
  part of its result.
- JavaScript `||` on an optional string treats both a missing value and the
  empty string as falsy; `jsOrStr`/`jsOrNull` reproduce this.
-/

namespace ZorbitNews

/-- A document of the `Lock` collection (`lockSchema`): `lockedAt`,
`lockedBy`, `expiresAt`; the unique `jobName` is the key it is stored under. -/
structure LockRecord where
  lockedAt : Nat
  lockedBy : String
  expiresAt : Nat
deriving Repr, DecidableEq

/-- The `locks` collection, keyed by the unique `jobName` field. -/
abbrev LockStore := String → Option LockRecord

/-- Point update of the lock store at one `jobName` key. -/
def setLock (s : LockStore) (j : String) (v : Option LockRecord) : LockStore :=
  fun k => if k = j then v else s k

namespace LockManager

/-- `LockManager.acquire(jobName, instanceId, ttlMinutes = 5)` from
`api/index.js` lines 127-158: one atomic conditional upsert
(`findOneAndUpdate` with the expired-or-absent filter), returning
`result.lockedBy === instanceId`; a duplicate-key failure of the upsert's
insert (non-expired record held by anyone) is caught and yields `false` with
the store untouched. -/
def acquire (s : LockStore) (jobName instanceId : String) (now ttlMinutes : Nat) :
    Bool × LockStore :=
  let expiresAt := now + ttlMinutes * 60000
  match s jobName with
  | none =>
      (true, setLock s jobName
        (some { lockedAt := now, lockedBy := instanceId, expiresAt := expiresAt }))
  | some r =>
      if r.expiresAt < now then
        (true, setLock s jobName
          (some { lockedAt := now, lockedBy := instanceId, expiresAt := expiresAt }))
      else
        (false, s)

/-- `LockManager.release(jobName, instanceId)` from `api/index.js` lines
160-169: `Lock.deleteOne({jobName, lockedBy: instanceId})` — the record is
deleted only when both the job name and the current owner match. -/
def release (s : LockStore) (jobName instanceId : String) : LockStore :=
  match s jobName with
  | some r => if r.lockedBy = instanceId then setLock s jobName none else s
  | none => s

/-- `LockManager.getLockStatus(jobName)`: `Lock.findOne({jobName})`. -/
def getLockStatus (s : LockStore) (jobName : String) : Option LockRecord :=
  s jobName

end LockManager

/-- A stored document of the `news` collection (`newsSchema`): all fields the
update job writes through `$set`.  `image` is optional (`null` allowed);
`fetchedAt` is a timestamp. -/
structure Article where
  title : String
  description : String
  link : String
  image : Option String
  source : String
  date : String
  query : String
  fetchedAt : Nat
deriving Repr, DecidableEq

/-- A raw `news_results` entry from the search provider as the update job
reads it: every field the transform touches may be missing except `link`. -/
structure RawArticle where
  title : Option String
  snippet : Option String
  link : String
  thumbnail : Option String
  sourceName : Option String
  date : Option String
deriving Repr, DecidableEq

/-- JavaScript `v || d` for an optional string `v`: both a missing value and
the empty string are falsy and fall through to the default. -/
def jsOrStr (v : Option String) (d : String) : String :=
  match v with
  | some s => if s = "" then d else s
  | none => d

/-- JavaScript `v || null` for an optional string: a missing or empty value
becomes `null` (here `none`). -/
def jsOrNull (v : Option String) : Option String :=
  match v with
  | some s => if s = "" then none else some s
  | none => none

/-- The per-article transform inside `NewsUpdater.updateDatabase`
(`api/index.js` lines 237-254): the `$set` payload of each bulk `updateOne`,
with `today` standing for `new Date().toISOString().split("T")[0]` and `now`
for `new Date()`. -/
def toArticle (now : Nat) (today : String) (query : String) (r : RawArticle) :
    Article :=
  { title := jsOrStr r.title "No title available"
    description := jsOrStr r.snippet ""
    link := r.link
    image := jsOrNull r.thumbnail
    source := jsOrStr r.sourceName "Unknown source"
    date := jsOrStr r.date today
    query := query
    fetchedAt := now }

/-- One `updateOne` with filter `{link: a.link}`, `$set` of every field and
`upsert: true` against the `news` collection: replace the first document with
the same `link` (the unique index guarantees there is at most one), or append
the document when no `link` matches. -/
def upsertByLink : List Article → Article → List Article
  | [], a => [a]
  | b :: rest, a =>
      if b.link = a.link then a :: rest else b :: upsertByLink rest a

/-- `News.bulkWrite(bulkOps)`: the ordered batch of per-article upserts of one
category, applied in one call. -/
def bulkWrite (store : List Article) (ops : List Article) : List Article :=
  ops.foldl upsertByLink store

/-- No two stored articles share a `link` — the invariant enforced by the
unique index `newsSchema.index({link: 1}, {unique: true})`. -/
def linkUnique (store : List Article) : Prop :=
  store.Pairwise (fun a b => a.link ≠ b.link)

instance (store : List Article) : Decidable (linkUnique store) := by
  unfold linkUnique
  infer_instance

/-- The HTTP transport toward the search API, as the sequence of outcomes of
the successive requests a caller issues: `target i` is what the `i`-th request
(0-based) returns — an error (network failure, timeout, non-2xx), or a parsed
body whose `news_results` field may be absent. -/
abbrev SerpTarget := Nat → Except String (Option (List RawArticle))

/-- `NewsUpdater.fetchFromSerpAPI(query, num)` from `api/index.js` lines
181-197: a single direct `axios.get` (one request, 10s timeout, no retry
wrapper); on success it returns `data.news_results || []`, on any error the
`catch` logs and returns `[]`.  The second component counts the HTTP requests
issued, which is always exactly one. -/
def fetchFromSerpAPI (target : SerpTarget) : List RawArticle × Nat :=
  match target 0 with
  | Except.ok (some l) => (l, 1)
  | Except.ok none => ([], 1)
  | Except.error _ => ([], 1)

/-- The backoff base of `fetchWithRetry`: the literal `1000` ms in
`setTimeout(resolve, 1000 * (MAX_RETRIES - retries + 1))`. -/
def backoffBaseMs : Int := 1000

/-- `fetchWithRetry(url, config, retries)` from `api/index.js` lines 484-506,
unrolled over the transport: issue the request at index `attempt`; on success
return the body; on failure, if `retries > 0`, wait
`1000 * (maxRetries - retries + 1)` ms and recurse with `retries - 1`, else
rethrow the error.  Returns the final outcome, the total number of requests
issued, and the list of delays waited (in ms, as JavaScript numbers, hence
`Int`). -/
def fetchWithRetryFrom (target : Nat → Except String α) (maxRetries : Nat) :
    Nat → Nat → Except String α × Nat × List Int
  | attempt, 0 =>
      match target attempt with
      | Except.ok v => (Except.ok v, 1, [])
      | Except.error e => (Except.error e, 1, [])
  | attempt, r + 1 =>
      match target attempt with
      | Except.ok v => (Except.ok v, 1, [])
      | Except.error _ =>
          let d := backoffBaseMs * ((maxRetries : Int) - ((r : Int) + 1) + 1)
          let rest := fetchWithRetryFrom target maxRetries (attempt + 1) r
          (rest.1, rest.2.1 + 1, d :: rest.2.2)

/-- Entry point of the retry client: the first request is attempt 0. -/
def fetchWithRetry (target : Nat → Except String α) (maxRetries retries : Nat) :
    Except String α × Nat × List Int :=
  fetchWithRetryFrom target maxRetries 0 retries

/-- The fixed category list of `NewsUpdater.updateDatabase`
(`api/index.js` lines 220-225). -/
def updateCategories : List (String × Nat) :=
  [("India news", 20), ("Technology", 15), ("Business", 15), ("Sports", 15)]

/-- The lock name used by the update job: `"news_update_job"`. -/
def lockName : String := "news_update_job"

/-- The environment one run of `NewsUpdater.updateDatabase` executes in:
its instance id, the wall clock (`now` in ms and `today` as the date string),
the transport toward the search API per `(query, num)` request, and, per
category, whether `News.bulkWrite` throws a storage error (`some message`)
or succeeds (`none`). -/
structure Env where
  instanceId : String
  now : Nat
  today : String
  serp : String → Nat → SerpTarget
  bulkErr : String → Option String

/-- The category loop of `NewsUpdater.updateDatabase` (`api/index.js` lines
227-260), inside the `try` block: for each `{query, count}` fetch via
`fetchFromSerpAPI` (which never throws — its `catch` returns `[]`); on an
empty result `continue`; otherwise map the articles to bulk upsert ops and
issue one `News.bulkWrite`.  A thrown storage error aborts the loop and is the
returned error; otherwise the error component is `none`. -/
def runCategories (env : Env) :
    List (String × Nat) → List Article → List Article × Option String
  | [], store => (store, none)
  | (query, count) :: rest, store =>
      let articles := (fetchFromSerpAPI (env.serp query count)).1
      if articles.length = 0 then
        runCategories env rest store
      else
        match env.bulkErr query with
        | some e => (store, some e)
        | none =>
            runCategories env rest
              (bulkWrite store (articles.map (toArticle env.now env.today query)))

/-- The outcome of one `NewsUpdater.updateDatabase()` call: the final lock
store and news collection, whether the lock was acquired and the update loop
entered (`ran`), the error the `catch` block logged (if the loop threw), and
the exception escaping to the caller, which the source's `try/catch/finally`
keeps at `none`. -/
structure UpdateResult where
  locks : LockStore
  news : List Article
  ran : Bool
  loopError : Option String
  escapedError : Option String

/-- `NewsUpdater.updateDatabase()` from `api/index.js` lines 199-269:
acquire the `"news_update_job"` lock with the default 5-minute TTL; on
failure log and return; on success run the category loop inside `try`, with
`catch` swallowing any thrown error and `finally` calling
`LockManager.release(lockName, instanceId)` on every exit path. -/
def updateDatabase (env : Env) (locks : LockStore) (news : List Article) :
    UpdateResult :=
  let acq := LockManager.acquire locks lockName env.instanceId env.now 5
  if acq.1 then
    let body := runCategories env updateCategories news
    { locks := LockManager.release acq.2 lockName env.instanceId
      news := body.1
      ran := true
      loopError := body.2
      escapedError := none }
  else
    { locks := acq.2
      news := news
      ran := false
      loopError := none
      escapedError := none }

/-- A sample raw search result, used as concrete input in witnesses. -/
def sampleRaw : RawArticle :=
  { title := some "Chip makers rally"
    snippet := some "Semiconductor stocks rose."
    link := "https://example.com/tech-1"
    thumbnail := none
    sourceName := some "Example Wire"
    date := some "2026-10-12" }

/-- A transport that fails on the first request and succeeds from the second
on: a transient failure that a retrying client recovers from. -/
def tTransient : SerpTarget :=
  fun i => if i = 0 then Except.error "ETIMEDOUT" else Except.ok (some [sampleRaw])

/-- An empty lock store. -/
def emptyLocks : LockStore := fun _ => none

/-- A lock store holding `"news_update_job"` for instance `"A"`, expiring at
time 100. -/
def locksHeldByA : LockStore :=
  fun j => if j = "news_update_job" then some ⟨0, "A", 100⟩ else none

/-- A previously stored sports article, used as concrete input in witnesses. -/
def priorSports : Article :=
  { title := "Final recap"
    description := "Season ends."
    link := "https://example.com/sports-1"
    image := none
    source := "Example Sports"
    date := "2026-01-01"
    query := "Sports"
    fetchedAt := 5 }

/-- A raw search result with every optional field missing, used as concrete
input for the transform-defaults witness. -/
def rawBare : RawArticle :=
  { title := none
    snippet := none
    link := "https://example.com/bare-1"
    thumbnail := none
    sourceName := none
    date := none }

/-- Two versions of one article: the same `link`, fetched twice with
different titles.  Concrete input for the upsert-deduplication witness. -/
def techV1 : Article :=
  { title := "Chip makers rally"
    description := "first fetch"
    link := "https://example.com/tech-1"
    image := none
    source := "Example Wire"
    date := "2026-10-12"
    query := "Technology"
    fetchedAt := 1000 }

/-- The later fetch of the article behind `techV1`: same `link`, new title. -/
def techV2 : Article :=
  { techV1 with title := "Chip makers surge", fetchedAt := 2000 }

/-- A witness environment: the provider returns `[sampleRaw]` for
`"Technology"` and zero results for every other category; the article store
never throws. -/
def envTechOnly : Env :=
  { instanceId := "inst-1"
    now := 1000
    today := "2026-10-12"
    serp := fun q _ =>
      if q = "Technology" then (fun _ => Except.ok (some [sampleRaw]))
      else (fun _ => Except.ok (some []))
    bulkErr := fun _ => none }

/-- A witness environment whose `"India news"` bulk write throws, exercising
the throwing exit path of the update loop. -/
def envBulkThrows : Env :=
  { instanceId := "inst-1"
    now := 1000
    today := "2026-10-12"
    serp := fun _ _ => (fun _ => Except.ok (some [sampleRaw]))
    bulkErr := fun q => if q = "India news" then some "MongoNetworkError" else none }

/-! Helper lemmas about the lock store. -/

theorem setLock_same (s : LockStore) (j : String) (v : Option LockRecord) :
    setLock s j v j = v := by
  simp [setLock]

theorem acquire_of_none (s : LockStore) (j i : String) (now ttl : Nat)
    (h : s j = none) :
    LockManager.acquire s j i now ttl =
      (true, setLock s j (some ⟨now, i, now + ttl * 60000⟩)) := by
  simp [LockManager.acquire, h]

theorem acquire_of_expired (s : LockStore) (j i : String) (r : LockRecord)
    (now ttl : Nat) (h : s j = some r) (hexp : r.expiresAt < now) :
    LockManager.acquire s j i now ttl =
      (true, setLock s j (some ⟨now, i, now + ttl * 60000⟩)) := by
  simp [LockManager.acquire, h, hexp]

theorem acquire_of_live (s : LockStore) (j i : String) (r : LockRecord)
    (now ttl : Nat) (h : s j = some r) (hlive : ¬ r.expiresAt < now) :
    LockManager.acquire s j i now ttl = (false, s) := by
  simp [LockManager.acquire, h, hlive]

theorem acquire_true_state (s : LockStore) (j i : String) (now ttl : Nat)
    (h : (LockManager.acquire s j i now ttl).1 = true) :
    (LockManager.acquire s j i now ttl).2 j = some ⟨now, i, now + ttl * 60000⟩ := by
  unfold LockManager.acquire at h ⊢
  cases hsj : s j with
  | none => simp [hsj, setLock_same]
  | some r =>
      simp only [hsj] at h ⊢
      by_cases hexp : r.expiresAt < now
      · simp [hexp, setLock_same]
      · simp [hexp] at h

theorem release_of_owner (s : LockStore) (j i : String) (r : LockRecord)
    (h : s j = some r) (hown : r.lockedBy = i) :
    LockManager.release s j i = setLock s j none := by
  simp [LockManager.release, h, hown]

/-! Claim theorems about the lock manager. -/

/-- C1: for a `jobName` with no pre-existing lock record, two racing
`acquire` calls with different `instanceId`s are serialised by the store into
one of the two orders of their single atomic conditional read-modify-write
steps (`findOneAndUpdate` is one command, never a separate read then write);
in whichever order (the winner quantified as `i1`), the first step returns
true and the second — executed while the first holder's TTL has not yet
passed — returns false and leaves the winner's record in place, so exactly
one of the two calls returns true. -/
theorem acquire_race_exactly_one (s : LockStore) (j i1 i2 : String)
    (now1 now2 ttl1 ttl2 : Nat) (h0 : s j = none) (hne : i1 ≠ i2)
    (hrace : now2 ≤ now1 + ttl1 * 60000) :
    (LockManager.acquire s j i1 now1 ttl1).1 = true ∧
    (LockManager.acquire (LockManager.acquire s j i1 now1 ttl1).2 j i2 now2 ttl2).1
      = false ∧
    (LockManager.acquire (LockManager.acquire s j i1 now1 ttl1).2 j i2 now2 ttl2).2 j
      = some ⟨now1, i1, now1 + ttl1 * 60000⟩ := by
  rw [acquire_of_none s j i1 now1 ttl1 h0]
  have hstate : (setLock s j (some ⟨now1, i1, now1 + ttl1 * 60000⟩)) j
      = some ⟨now1, i1, now1 + ttl1 * 60000⟩ := setLock_same ..
  have hlive : ¬ (LockRecord.mk now1 i1 (now1 + ttl1 * 60000)).expiresAt < now2 := by
    simpa using Nat.not_lt.mpr hrace
  rw [acquire_of_live _ j i2 _ now2 ttl2 hstate hlive]
  exact ⟨rfl, rfl, hstate⟩

/-- C1 witness: concrete race on an empty store — instance `"A"` acquires at
time 0 with a 5-minute TTL, instance `"B"`'s acquire at time 60000 returns
false and `"A"`'s record stands. -/
theorem acquire_race_exactly_one_witness :
    (LockManager.acquire emptyLocks "news_update_job" "A" 0 5).1 = true ∧
    (LockManager.acquire
      (LockManager.acquire emptyLocks "news_update_job" "A" 0 5).2
      "news_update_job" "B" 60000 5).1 = false ∧
    (LockManager.acquire
      (LockManager.acquire emptyLocks "news_update_job" "A" 0 5).2
      "news_update_job" "B" 60000 5).2 "news_update_job"
      = some ⟨0, "A", 300000⟩ :=
  acquire_race_exactly_one emptyLocks "news_update_job" "A" "B" 0 60000 5 5
    rfl (by decide) (by decide)

/-- C3: with the `jobName` record owned by `A`, an `acquire` by a different
instance `B` returns true and overwrites the record (`lockedBy := B`,
`lockedAt := now`, `expiresAt := now + ttl`) exactly when the record's
`expiresAt` is strictly in the past (`$lt now`); otherwise it returns false
and `A`'s record is unchanged. -/
theorem acquire_steal_iff_expired (s : LockStore) (j B : String)
    (r : LockRecord) (now ttl : Nat) (h : s j = some r)
    (hAB : r.lockedBy ≠ B) :
    (((LockManager.acquire s j B now ttl).1 = true ∧
      (LockManager.acquire s j B now ttl).2 j = some ⟨now, B, now + ttl * 60000⟩)
      ↔ r.expiresAt < now) ∧
    (¬ r.expiresAt < now →
      (LockManager.acquire s j B now ttl).1 = false ∧
      (LockManager.acquire s j B now ttl).2 = s) := by
  constructor
  · constructor
    · intro hacq
      by_contra hlive
      rw [acquire_of_live s j B r now ttl h hlive] at hacq
      exact absurd hacq.1 (by simp)
    · intro hexp
      rw [acquire_of_expired s j B r now ttl h hexp]
      exact ⟨rfl, setLock_same ..⟩
  · intro hlive
    rw [acquire_of_live s j B r now ttl h hlive]
    exact ⟨rfl, rfl⟩

/-- C3 witness: `"A"` holds `"news_update_job"` with `expiresAt = 100`; at
time 200 the record is expired, so `"B"`'s acquire succeeds and rewrites it,
while at time 50 (non-expired) the second conjunct yields false/unchanged. -/
theorem acquire_steal_iff_expired_witness :
    ((((LockManager.acquire locksHeldByA "news_update_job" "B" 200 5).1 = true ∧
      (LockManager.acquire locksHeldByA "news_update_job" "B" 200 5).2
        "news_update_job" = some ⟨200, "B", 200 + 5 * 60000⟩)
      ↔ (100 : Nat) < 200) ∧
    (¬ (100 : Nat) < 200 →
      (LockManager.acquire locksHeldByA "news_update_job" "B" 200 5).1 = false ∧
      (LockManager.acquire locksHeldByA "news_update_job" "B" 200 5).2
        = locksHeldByA)) :=
  acquire_steal_iff_expired locksHeldByA "news_update_job" "B" ⟨0, "A", 100⟩
    200 5 rfl (by decide)

/-- C4: `release` has compare-and-delete semantics — with a record present
for `jobName`, it removes the record exactly when the record's `lockedBy`
equals the releasing `instanceId`; a non-owner's release leaves the store
untouched (the owner remains); and after the owner's release any instance's
subsequent `acquire` succeeds. -/
theorem release_compare_and_delete (s : LockStore) (j i : String)
    (r : LockRecord) (h : s j = some r) :
    (r.lockedBy = i →
      (LockManager.release s j i) j = none ∧
      ∀ (i2 : String) (now2 ttl2 : Nat),
        (LockManager.acquire (LockManager.release s j i) j i2 now2 ttl2).1 = true) ∧
    (r.lockedBy ≠ i → LockManager.release s j i = s) := by
  constructor
  · intro hown
    have hrel : LockManager.release s j i = setLock s j none :=
      release_of_owner s j i r h hown
    refine ⟨by rw [hrel]; exact setLock_same .., ?_⟩
    intro i2 now2 ttl2
    rw [hrel, acquire_of_none _ j i2 now2 ttl2 (setLock_same ..)]
  · intro hother
    simp [LockManager.release, h, hother]

/-- C4 witness: with `"A"` holding the lock, `release` by `"A"` deletes the
record and a subsequent acquire by `"B"` succeeds, while `release` by `"B"`
leaves the store unchanged. -/
theorem release_compare_and_delete_witness :
    (("A" : String) = "A" →
      (LockManager.release locksHeldByA "news_update_job" "A") "news_update_job"
        = none ∧
      ∀ (i2 : String) (now2 ttl2 : Nat),
        (LockManager.acquire (LockManager.release locksHeldByA "news_update_job" "A")
          "news_update_job" i2 now2 ttl2).1 = true) ∧
    (("A" : String) ≠ "A" →
      LockManager.release locksHeldByA "news_update_job" "A" = locksHeldByA) :=
  release_compare_and_delete locksHeldByA "news_update_job" "A" ⟨0, "A", 100⟩ rfl

/-- C10: `acquire` is not reentrant and does not extend the lease — while
instance `A` holds a non-expired record for `jobName`, a further `acquire` by
`A` itself returns false (the conditional update matches only expired records
and the upsert's insert fails against the unique `jobName` index) and the
whole store, including the record's `expiresAt`, is unchanged. -/
theorem acquire_not_reentrant (s : LockStore) (j A : String) (r : LockRecord)
    (now ttl : Nat) (h : s j = some r) (hown : r.lockedBy = A)
    (hlive : now ≤ r.expiresAt) :
    (LockManager.acquire s j A now ttl).1 = false ∧
    (LockManager.acquire s j A now ttl).2 = s := by
  have hnl : ¬ r.expiresAt < now := Nat.not_lt.mpr hlive
  rw [acquire_of_live s j A r now ttl h hnl]
  exact ⟨rfl, rfl⟩

/-- C10 witness: `"A"` holds the lock until time 100; its own re-acquire at
time 50 returns false and leaves the store untouched. -/
theorem acquire_not_reentrant_witness :
    (LockManager.acquire locksHeldByA "news_update_job" "A" 50 5).1 = false ∧
    (LockManager.acquire locksHeldByA "news_update_job" "A" 50 5).2
      = locksHeldByA :=
  acquire_not_reentrant locksHeldByA "news_update_job" "A" ⟨0, "A", 100⟩ 50 5
    rfl rfl (by decide)

/-- C2: every `updateDatabase` run that acquires the lock releases it on
every exit path — the category loop's outcome (normal completion or a thrown
storage error, both covered by the quantified environment) is wrapped in
`try/catch/finally`, so the run ends with the `"news_update_job"` record
deleted and no exception escaping to the caller. -/
theorem updateDatabase_always_releases (env : Env) (locks : LockStore)
    (news : List Article)
    (hran : (updateDatabase env locks news).ran = true) :
    (updateDatabase env locks news).locks lockName = none ∧
    (updateDatabase env locks news).escapedError = none := by
  by_cases hacq : (LockManager.acquire locks lockName env.instanceId env.now 5).1 = true
  · have hst := acquire_true_state locks lockName env.instanceId env.now 5 hacq
    have hrel := release_of_owner _ lockName env.instanceId _ hst rfl
    simp only [updateDatabase, hacq, if_true]
    rw [hrel]
    exact ⟨setLock_same .., by trivial⟩
  · simp only [Bool.not_eq_true] at hacq
    simp [updateDatabase, hacq] at hran

/-- C2 witness: a concrete run whose first category's bulk write throws —
the lock is acquired at time 1000, the loop aborts with a storage error, and
still the final store holds no `"news_update_job"` record and no error
escapes. -/
theorem updateDatabase_always_releases_witness :
    (updateDatabase envBulkThrows emptyLocks []).locks lockName = none ∧
    (updateDatabase envBulkThrows emptyLocks []).escapedError = none :=
  updateDatabase_always_releases envBulkThrows emptyLocks [] (by decide)

/-! Helper lemmas about the article store and `upsertByLink`. -/

theorem mem_upsertByLink_self (s : List Article) (a : Article) :
    a ∈ upsertByLink s a := by
  induction s with
  | nil => simp [upsertByLink]
  | cons b rest ih =>
      by_cases h : b.link = a.link
      · simp [upsertByLink, h]
      · simp only [upsertByLink, if_neg h]
        exact List.mem_cons_of_mem b ih

theorem mem_upsertByLink_of_ne (s : List Article) (a b : Article)
    (hb : b ∈ s) (hne : b.link ≠ a.link) : b ∈ upsertByLink s a := by
  induction s with
  | nil => cases hb
  | cons c rest ih =>
      rcases List.mem_cons.mp hb with rfl | hb'
      · have h : ¬ b.link = a.link := hne
        simp only [upsertByLink, if_neg h]
        exact List.mem_cons_self b _
      · by_cases h : c.link = a.link
        · simp only [upsertByLink, if_pos h]
          exact List.mem_cons_of_mem a hb'
        · simp only [upsertByLink, if_neg h]
          exact List.mem_cons_of_mem c (ih hb')

theorem mem_of_mem_upsertByLink (s : List Article) (a b : Article)
    (hb : b ∈ upsertByLink s a) : b ∈ s ∨ b = a := by
  induction s with
  | nil =>
      simp only [upsertByLink, List.mem_singleton] at hb
      exact Or.inr hb
  | cons c rest ih =>
      by_cases h : c.link = a.link
      · simp only [upsertByLink, if_pos h, List.mem_cons] at hb
        rcases hb with rfl | hb'
        · exact Or.inr rfl
        · exact Or.inl (List.mem_cons_of_mem c hb')
      · simp only [upsertByLink, if_neg h, List.mem_cons] at hb
        rcases hb with rfl | hb'
        · exact Or.inl (List.mem_cons_self b rest)
        · rcases ih hb' with h1 | h2
          · exact Or.inl (List.mem_cons_of_mem c h1)
          · exact Or.inr h2

theorem upsertByLink_linkUnique (s : List Article) (a : Article)
    (h : linkUnique s) : linkUnique (upsertByLink s a) := by
  induction s with
  | nil => simp [upsertByLink, linkUnique]
  | cons c rest ih =>
      rw [linkUnique, List.pairwise_cons] at h
      obtain ⟨hc, hrest⟩ := h
      by_cases hl : c.link = a.link
      · simp only [upsertByLink, if_pos hl]
        rw [linkUnique, List.pairwise_cons]
        exact ⟨fun b hb => hl ▸ hc b hb, hrest⟩
      · simp only [upsertByLink, if_neg hl]
        rw [linkUnique, List.pairwise_cons]
        refine ⟨fun b hb => ?_, ih hrest⟩
        rcases mem_of_mem_upsertByLink rest a b hb with h1 | rfl
        · exact hc b h1
        · exact hl

theorem filter_upsertByLink_self (s : List Article) (a : Article)
    (h : linkUnique s) :
    (upsertByLink s a).filter (fun b => b.link = a.link) = [a] := by
  induction s with
  | nil => simp [upsertByLink]
  | cons c rest ih =>
      rw [linkUnique, List.pairwise_cons] at h
      obtain ⟨hc, hrest⟩ := h
      by_cases hl : c.link = a.link
      · simp only [upsertByLink, if_pos hl]
        rw [List.filter_cons_of_pos (by simp)]
        have hnil : rest.filter (fun b => b.link = a.link) = [] := by
          rw [List.filter_eq_nil_iff]
          intro b hb
          simp only [decide_eq_true_eq]
          intro hba
          exact hc b hb (hl.trans hba.symm)
        rw [hnil]
      · simp only [upsertByLink, if_neg hl]
        rw [List.filter_cons_of_neg (by simpa using hl)]
        exact ih hrest

theorem filter_upsertByLink_other (s : List Article) (a : Article) (l : String)
    (h : a.link ≠ l) :
    (upsertByLink s a).filter (fun b => b.link = l)
      = s.filter (fun b => b.link = l) := by
  induction s with
  | nil => simp [upsertByLink, h]
  | cons c rest ih =>
      by_cases hl : c.link = a.link
      · have hcl : ¬ c.link = l := fun hcl => h (hl ▸ hcl)
        simp only [upsertByLink, if_pos hl]
        rw [List.filter_cons_of_neg (by simpa using h),
          List.filter_cons_of_neg (by simpa using hcl)]
      · simp only [upsertByLink, if_neg hl]
        by_cases hcl : c.link = l
        · rw [List.filter_cons_of_pos (by simpa using hcl),
            List.filter_cons_of_pos (by simpa using hcl), ih]
        · rw [List.filter_cons_of_neg (by simpa using hcl),
            List.filter_cons_of_neg (by simpa using hcl), ih]

theorem upsertByLink_length_of_mem (s : List Article) (a : Article)
    (h : ∃ b ∈ s, b.link = a.link) : (upsertByLink s a).length = s.length := by
  induction s with
  | nil => obtain ⟨b, hb, _⟩ := h; cases hb
  | cons c rest ih =>
      by_cases hl : c.link = a.link
      · simp [upsertByLink, hl]
      · simp only [upsertByLink, if_neg hl, List.length_cons]
        obtain ⟨b, hb, hba⟩ := h
        rcases List.mem_cons.mp hb with rfl | hb'
        · exact absurd hba hl
        · rw [ih ⟨b, hb', hba⟩]

theorem bulkWrite_linkUnique (ops : List Article) (s : List Article)
    (h : linkUnique s) : linkUnique (bulkWrite s ops) := by
  induction ops generalizing s with
  | nil => exact h
  | cons o rest ih => exact ih _ (upsertByLink_linkUnique s o h)

theorem filter_bulkWrite_other (ops : List Article) (s : List Article)
    (l : String) (h : ∀ o ∈ ops, o.link ≠ l) :
    (bulkWrite s ops).filter (fun b => b.link = l)
      = s.filter (fun b => b.link = l) := by
  induction ops generalizing s with
  | nil => rfl
  | cons o rest ih =>
      have := ih (upsertByLink s o) (fun o' ho' => h o' (List.mem_cons_of_mem o ho'))
      rw [bulkWrite] at this ⊢
      simp only [List.foldl_cons] at this ⊢
      rw [this, filter_upsertByLink_other s o l (h o (List.mem_cons_self o rest))]

theorem mem_bulkWrite_of_ne (ops : List Article) (s : List Article)
    (b : Article) (hb : b ∈ s) (h : ∀ o ∈ ops, o.link ≠ b.link) :
    b ∈ bulkWrite s ops := by
  induction ops generalizing s with
  | nil => exact hb
  | cons o rest ih =>
      have hne : b.link ≠ o.link := fun e => h o (List.mem_cons_self o rest) e.symm
      exact ih (upsertByLink s o) (mem_upsertByLink_of_ne s o b hb hne)
        (fun o' ho' => h o' (List.mem_cons_of_mem o ho'))

theorem mem_bulkWrite_self (ops : List Article) (s : List Article)
    (a : Article) (ha : a ∈ ops)
    (hdist : ops.Pairwise (fun x y => x.link ≠ y.link)) :
    a ∈ bulkWrite s ops := by
  induction ops generalizing s with
  | nil => cases ha
  | cons o rest ih =>
      rw [List.pairwise_cons] at hdist
      obtain ⟨ho, hrest⟩ := hdist
      rcases List.mem_cons.mp ha with rfl | ha'
      · exact mem_bulkWrite_of_ne rest (upsertByLink s a) a
          (mem_upsertByLink_self s a) (fun o' ho' => (ho o' ho').symm)
      · exact ih (upsertByLink s o) ha' hrest

/-- C8: upserting two articles with the same `link` and different titles into
a store satisfying the unique-`link` invariant leaves exactly one stored
record for that link — the one written later, title included — keeps `link`
unique across the whole store, and updates in place rather than duplicating
(the second upsert does not grow the store). -/
theorem upsert_same_link_dedup (store : List Article) (a1 a2 : Article)
    (h : linkUnique store) (hl : a1.link = a2.link) (ht : a1.title ≠ a2.title) :
    (upsertByLink (upsertByLink store a1) a2).filter
        (fun b => b.link = a2.link) = [a2] ∧
    linkUnique (upsertByLink (upsertByLink store a1) a2) ∧
    (upsertByLink (upsertByLink store a1) a2).length
      = (upsertByLink store a1).length := by
  have h1 : linkUnique (upsertByLink store a1) := upsertByLink_linkUnique store a1 h
  exact ⟨filter_upsertByLink_self _ a2 h1, upsertByLink_linkUnique _ a2 h1,
    upsertByLink_length_of_mem _ a2 ⟨a1, mem_upsertByLink_self store a1, hl⟩⟩

/-- C8 witness: upserting `techV1` then `techV2` (same link, new title) into
the store `[priorSports]` leaves exactly the record `techV2` under that link,
keeps links unique, and does not grow the store on the second upsert. -/
theorem upsert_same_link_dedup_witness :
    (upsertByLink (upsertByLink [priorSports] techV1) techV2).filter
        (fun b => b.link = techV2.link) = [techV2] ∧
    linkUnique (upsertByLink (upsertByLink [priorSports] techV1) techV2) ∧
    (upsertByLink (upsertByLink [priorSports] techV1) techV2).length
      = (upsertByLink [priorSports] techV1).length :=
  upsert_same_link_dedup [priorSports] techV1 techV2 (by decide) rfl (by decide)

/-! The update-job run where only `"Technology"` yields results. -/

theorem runCategories_techOnly (env : Env) (news : List Article)
    (techRaw : List RawArticle)
    (h1 : (fetchFromSerpAPI (env.serp "India news" 20)).1 = [])
    (h2 : (fetchFromSerpAPI (env.serp "Technology" 15)).1 = techRaw)
    (h3 : (fetchFromSerpAPI (env.serp "Business" 15)).1 = [])
    (h4 : (fetchFromSerpAPI (env.serp "Sports" 15)).1 = [])
    (hne : techRaw ≠ [])
    (hbulk : env.bulkErr "Technology" = none) :
    runCategories env updateCategories news
      = (bulkWrite news (techRaw.map (toArticle env.now env.today "Technology")),
          none) := by
  have hlen : ¬ techRaw.length = 0 := by
    simpa [List.length_eq_zero] using hne
  simp [runCategories, updateCategories, h1, h2, h3, h4, hbulk, hlen]

theorem updateDatabase_eq_of_acquired (env : Env) (locks : LockStore)
    (news : List Article) (hlock : locks lockName = none) :
    updateDatabase env locks news =
      { locks := LockManager.release
          (setLock locks lockName
            (some ⟨env.now, env.instanceId, env.now + 5 * 60000⟩))
          lockName env.instanceId
        news := (runCategories env updateCategories news).1
        ran := true
        loopError := (runCategories env updateCategories news).2
        escapedError := none } := by
  have hacq := acquire_of_none locks lockName env.instanceId env.now 5 hlock
  simp [updateDatabase, hacq]

/-- C7: when the search provider yields zero results (or fails — both reach
the job as an empty list, since `fetchFromSerpAPI` catches errors) for every
category except `"Technology"`, `updateDatabase` completes the whole category
loop without aborting, stores the technology articles, and performs no write
at all for the empty categories: any previously stored article whose link is
not among the fetched technology links — in particular all prior `"Sports"`
articles — is still present unchanged, and the store's per-link contents away
from the fetched links are exactly as before (no deletion on empty fetch). -/
theorem updateDatabase_empty_category_frame (env : Env) (locks : LockStore)
    (news : List Article) (techRaw : List RawArticle)
    (hlock : locks lockName = none)
    (h1 : (fetchFromSerpAPI (env.serp "India news" 20)).1 = [])
    (h2 : (fetchFromSerpAPI (env.serp "Technology" 15)).1 = techRaw)
    (h3 : (fetchFromSerpAPI (env.serp "Business" 15)).1 = [])
    (h4 : (fetchFromSerpAPI (env.serp "Sports" 15)).1 = [])
    (hne : techRaw ≠ [])
    (hbulk : env.bulkErr "Technology" = none) :
    (updateDatabase env locks news).ran = true ∧
    (updateDatabase env locks news).loopError = none ∧
    (updateDatabase env locks news).news
      = bulkWrite news (techRaw.map (toArticle env.now env.today "Technology")) ∧
    (∀ a ∈ news,
      (∀ o ∈ techRaw.map (toArticle env.now env.today "Technology"),
        o.link ≠ a.link) →
      a ∈ (updateDatabase env locks news).news) ∧
    (∀ l : String,
      (∀ o ∈ techRaw.map (toArticle env.now env.today "Technology"),
        o.link ≠ l) →
      ((updateDatabase env locks news).news).filter (fun b => b.link = l)
        = news.filter (fun b => b.link = l)) ∧
    ((techRaw.map (toArticle env.now env.today "Technology")).Pairwise
        (fun x y => x.link ≠ y.link) →
      ∀ o ∈ techRaw.map (toArticle env.now env.today "Technology"),
        o ∈ (updateDatabase env locks news).news) := by
  have hrun := runCategories_techOnly env news techRaw h1 h2 h3 h4 hne hbulk
  have hout := updateDatabase_eq_of_acquired env locks news hlock
  rw [hrun] at hout
  refine ⟨by rw [hout], by rw [hout], by rw [hout], ?_, ?_, ?_⟩
  · intro a ha hframe
    rw [hout]
    exact mem_bulkWrite_of_ne _ news a ha hframe
  · intro l hframe
    rw [hout]
    exact filter_bulkWrite_other _ news l hframe
  · intro hdist o ho
    rw [hout]
    exact mem_bulkWrite_self _ news o ho hdist

/-- C7 witness: concrete run of `updateDatabase` in `envTechOnly` (provider
empty except for `"Technology"`, which yields `[sampleRaw]`) over a store
holding one prior sports article: the run completes, the prior sports article
survives untouched, and the transformed technology article is stored. -/
theorem updateDatabase_empty_category_frame_witness :
    (updateDatabase envTechOnly emptyLocks [priorSports]).ran = true ∧
    (updateDatabase envTechOnly emptyLocks [priorSports]).loopError = none ∧
    priorSports ∈ (updateDatabase envTechOnly emptyLocks [priorSports]).news ∧
    toArticle envTechOnly.now envTechOnly.today "Technology" sampleRaw
      ∈ (updateDatabase envTechOnly emptyLocks [priorSports]).news :=
  have h := updateDatabase_empty_category_frame envTechOnly emptyLocks
    [priorSports] [sampleRaw] rfl rfl rfl rfl rfl (by decide) rfl
  ⟨h.1, h.2.1,
    h.2.2.2.1 priorSports (by decide) (by decide),
    h.2.2.2.2.2 (by decide) _ (by decide)⟩

/-- C9: the update job's transform into the `Article` shape supplies defaults
for missing optional fields — a missing title becomes the placeholder
`"No title available"`, a missing snippet an empty description, a missing
thumbnail an absent image, a missing date the current date string — keeps the
`link` as the key and tags the category; and a category with non-empty
results is written by exactly one batched `bulkWrite` of all its transformed
articles keyed by `link`, after which the loop moves to the next category. -/
theorem transform_defaults_and_batched_write (now : Nat) (today q : String)
    (r : RawArticle) :
    (r.title = none → (toArticle now today q r).title = "No title available") ∧
    (r.snippet = none → (toArticle now today q r).description = "") ∧
    (r.thumbnail = none → (toArticle now today q r).image = none) ∧
    (r.date = none → (toArticle now today q r).date = today) ∧
    ((toArticle now today q r).link = r.link ∧ (toArticle now today q r).query = q) ∧
    ∀ (env : Env) (query : String) (count : Nat) (rest : List (String × Nat))
      (store : List Article),
      (fetchFromSerpAPI (env.serp query count)).1 ≠ [] →
      env.bulkErr query = none →
      runCategories env ((query, count) :: rest) store
        = runCategories env rest
            (bulkWrite store
              (((fetchFromSerpAPI (env.serp query count)).1).map
                (toArticle env.now env.today query))) := by
  refine ⟨fun h => by simp [toArticle, jsOrStr, h],
    fun h => by simp [toArticle, jsOrStr, h],
    fun h => by simp [toArticle, jsOrNull, h],
    fun h => by simp [toArticle, jsOrStr, h],
    ⟨rfl, rfl⟩, ?_⟩
  intro env query count rest store hne hb
  have hlen : ¬ ((fetchFromSerpAPI (env.serp query count)).1).length = 0 := by
    simpa [List.length_eq_zero] using hne
  simp [runCategories, hlen, hb]

/-- C9 witness: the transform of a raw result with every optional field
missing produces all four defaults, and the `"Technology"` category step in
`envTechOnly` is exactly one `bulkWrite` of the transformed list. -/
theorem transform_defaults_and_batched_write_witness :
    (toArticle 1000 "2026-10-12" "Business" rawBare).title = "No title available" ∧
    (toArticle 1000 "2026-10-12" "Business" rawBare).description = "" ∧
    (toArticle 1000 "2026-10-12" "Business" rawBare).image = none ∧
    (toArticle 1000 "2026-10-12" "Business" rawBare).date = "2026-10-12" ∧
    runCategories envTechOnly [("Technology", 15)] []
      = runCategories envTechOnly []
          (bulkWrite []
            (((fetchFromSerpAPI (envTechOnly.serp "Technology" 15)).1).map
              (toArticle envTechOnly.now envTechOnly.today "Technology"))) :=
  have h := transform_defaults_and_batched_write 1000 "2026-10-12" "Business" rawBare
  ⟨h.1 rfl, h.2.1 rfl, h.2.2.1 rfl, h.2.2.2.1 rfl,
    h.2.2.2.2.2 envTechOnly "Technology" 15 [] [] (by decide) rfl⟩

/-- C5: against a target failing every attempt, `fetchWithRetry` called with
`retries = 2` issues exactly 3 requests (the initial attempt plus 2 retries),
propagates the last underlying error to the caller, and before each retry
waits `backoffBaseMs * (maxRetries - retriesRemaining + 1)` ms, delays that
increase linearly between successive attempts. -/
theorem fetchWithRetry_exhausts_attempts (α : Type) (t : Nat → Except String α)
    (m : Nat) (es : Nat → String) (hfail : ∀ i, t i = Except.error (es i)) :
    fetchWithRetry t m 2
      = (Except.error (es 2), 3,
          [backoffBaseMs * ((m : Int) - 2 + 1),
            backoffBaseMs * ((m : Int) - 1 + 1)]) ∧
    backoffBaseMs * ((m : Int) - 2 + 1) < backoffBaseMs * ((m : Int) - 1 + 1) := by
  constructor
  · simp only [fetchWithRetry, fetchWithRetryFrom, hfail 0, hfail 1, hfail 2]
    norm_num
  · unfold backoffBaseMs
    omega

/-- C5 witness: a concrete always-failing target with `maxRetries = 3` and
`retries = 2` — three requests, the error surfaces, and the two waits are
2000 ms then 3000 ms. -/
theorem fetchWithRetry_exhausts_attempts_witness :
    fetchWithRetry
        (fun _ => (Except.error "ECONNRESET" : Except String (Option (List RawArticle))))
        3 2
      = (Except.error "ECONNRESET", 3,
          [backoffBaseMs * (((3 : Nat) : Int) - 2 + 1),
            backoffBaseMs * (((3 : Nat) : Int) - 1 + 1)]) ∧
    backoffBaseMs * (((3 : Nat) : Int) - 2 + 1)
      < backoffBaseMs * (((3 : Nat) : Int) - 1 + 1) :=
  fetchWithRetry_exhausts_attempts (Option (List RawArticle))
    (fun _ => Except.error "ECONNRESET") 3 (fun _ => "ECONNRESET") (fun _ => rfl)

/-- C6 counterexample: a transient search failure — the first request times
out, a second request would succeed.  The update job's category fetch
`fetchFromSerpAPI` issues exactly one request and treats the category as
failed (empty list), while the retrying client `fetchWithRetry` on the same
target recovers with a second request.  So the job does not perform its
search fetch through the retrying client and a transiently failing request is
not retried up to the retry bound, refuting the claim as stated. -/
theorem job_fetch_no_retry_cex :
    (fetchFromSerpAPI tTransient).2 = 1 ∧
    (fetchFromSerpAPI tTransient).1 = [] ∧
    (fetchWithRetry tTransient 3 3).1 = Except.ok (some [sampleRaw]) ∧
    (fetchWithRetry tTransient 3 3).2.1 = 2 := by
  refine ⟨rfl, rfl, rfl, rfl⟩

/-- C6 amended: the update job's per-category search fetch is a single direct
HTTP request, not a call through the retrying client — `fetchFromSerpAPI`
always issues exactly one request, and whenever that single request fails the
category is immediately treated as failed (empty result) with no retry. -/
theorem fetchFromSerpAPI_single_attempt (t : SerpTarget) :
    (fetchFromSerpAPI t).2 = 1 ∧
    (∀ e, t 0 = Except.error e → (fetchFromSerpAPI t).1 = []) := by
  constructor
  · cases h : t 0 with
    | ok v => cases v <;> simp [fetchFromSerpAPI, h]
    | error e => simp [fetchFromSerpAPI, h]
  · intro e he
    simp [fetchFromSerpAPI, he]

/-- C6 amended witness: on the concrete transient target the job's fetch
issues one request and yields the empty list. -/
theorem fetchFromSerpAPI_single_attempt_witness :
    (fetchFromSerpAPI tTransient).2 = 1 ∧ (fetchFromSerpAPI tTransient).1 = [] :=
  ⟨(fetchFromSerpAPI_single_attempt tTransient).1,
    (fetchFromSerpAPI_single_attempt tTransient).2 "ETIMEDOUT" rfl⟩

end ZorbitNews
